import Mathlib

/-!
Shallow embedding of the ETL transform stage of this repository
(`Transform.py`: `prepare_relational_tables` and `build_order_summary`).

Tabular data is modelled as lists of typed row structures.  A raw CSV cell
is a `Cell`: either missing (`null`, pandas `NaN`/`NaT`), a string, or a
number (modelled as an exact rational; the source uses IEEE floats, and on
every concrete value appearing in the claims the two agree exactly).
Column-wise pandas coercions that can raise (`astype(int)`,
`astype(float)`, `astype("Int64")`) are embedded as `Except`-valued
per-row functions; a whole-table coercion fails exactly when some cell
fails, which matches the success/failure behaviour of the column-wise
original (only the error message may differ).
-/

namespace UgeOtte

/-- A raw tabular cell: missing value (pandas `NaN`), text, or a number. -/
inductive Cell where
  | null : Cell
  | str : String → Cell
  | num : ℚ → Cell
deriving DecidableEq, Repr

/-- Digit string to natural number, most significant digit first. -/
def digitsToNat (l : List Char) : Nat :=
  l.foldl (fun a c => a * 10 + (c.toNat - 48)) 0

/-- Parse a nonempty all-digit character list; `none` otherwise. -/
def digitsToNat? (l : List Char) : Option Nat :=
  if l ≠ [] ∧ l.all Char.isDigit then some (digitsToNat l) else none

/-- Integer literal: optional sign followed by digits (Python `int(s)`). -/
def parseIntString (s : String) : Option Int :=
  match s.data with
  | '-' :: rest => (digitsToNat? rest).map (fun n => -(n : Int))
  | '+' :: rest => (digitsToNat? rest).map (fun n => (n : Int))
  | l => (digitsToNat? l).map (fun n => (n : Int))

/-- Split a character list on a separator character. -/
def splitChar (sep : Char) : List Char → List (List Char)
  | [] => [[]]
  | c :: rest =>
      let r := splitChar sep rest
      if c = sep then [] :: r
      else
        match r with
        | [] => [[c]]
        | h :: t => (c :: h) :: t

/-- Unsigned decimal numeral, with an optional fractional part
(`"12"`, `"12.5"`, `"12."`, `".5"`). -/
def parseUnsignedRat (l : List Char) : Option ℚ :=
  match splitChar '.' l with
  | [a] => (digitsToNat? a).map (fun n => (n : ℚ))
  | [a, b] =>
      if (a ≠ [] ∨ b ≠ []) ∧ a.all Char.isDigit ∧ b.all Char.isDigit then
        some ((digitsToNat a : ℚ) + (digitsToNat b : ℚ) / (10 ^ b.length))
      else none
  | _ => none

/-- Decimal numeral with optional sign (Python `float(s)` on plain decimals). -/
def parseRatString (s : String) : Option ℚ :=
  match s.data with
  | '-' :: rest => (parseUnsignedRat rest).map (fun q => -q)
  | '+' :: rest => parseUnsignedRat rest
  | l => parseUnsignedRat l

/-- Truncation toward zero, as numpy float-to-int casting does. -/
def truncToInt (q : ℚ) : Int :=
  if 0 ≤ q then ⌊q⌋ else -⌊-q⌋

/-- `astype(int)` on one cell: missing value or a non-integer string is an
error; a number is truncated toward zero. -/
def Cell.toInt : Cell → Except String Int
  | .null => .error "cannot convert non-finite values (NA or inf) to integer"
  | .num q => .ok (truncToInt q)
  | .str s =>
      match parseIntString s with
      | some n => .ok n
      | none => .error "invalid literal for int"

/-- `astype(float)` on one cell: a missing value stays missing (`NaN` is a
float), a non-numeric string is an error. -/
def Cell.toFloat : Cell → Except String (Option ℚ)
  | .null => .ok none
  | .num q => .ok (some q)
  | .str s =>
      match parseRatString s with
      | some q => .ok (some q)
      | none => .error "could not convert string to float"

/-- `pd.to_numeric(·, errors="coerce")` on one cell: anything that does not
parse as a number becomes missing. -/
def toNumericCoerce : Cell → Option ℚ
  | .null => none
  | .num q => some q
  | .str s => parseRatString s

/-- `astype("Int64")` on a nullable numeric: missing stays missing, an
integral value is kept, a fractional value cannot be safely cast. -/
def toNullableInt64 : Option ℚ → Except String (Option Int)
  | none => .ok none
  | some q => if q.den = 1 then .ok (some q.num) else .error "cannot safely cast non-equivalent values"

/-- `fillna(0).astype(int).astype(bool)` on one cell of the `active`
column: missing becomes `0` hence `false`; any other value is coerced to
int and then to its truthiness. -/
def coerceActive : Cell → Except String Bool
  | .null => .ok false
  | c => (Cell.toInt c).map (fun n => n != 0)

/-- A calendar date (what a successfully parsed timestamp carries here). -/
structure Date where
  year : Nat
  month : Nat
  day : Nat
deriving DecidableEq, Repr

def isLeapYear (y : Nat) : Bool :=
  (y % 4 == 0 && y % 100 != 0) || y % 400 == 0

def daysInMonth (y : Nat) (m : Nat) : Nat :=
  if m = 2 then (if isLeapYear y then 29 else 28)
  else if m = 4 ∨ m = 6 ∨ m = 9 ∨ m = 11 then 30
  else 31

/-- Lower bound of the pandas nanosecond `Timestamp` range for a date at
midnight: `Timestamp.min` is 1677-09-21 00:12:43, so the first midnight
it contains is 1677-09-22. -/
def timestampMinOk (y m d : Nat) : Prop :=
  1677 < y ∨ (y = 1677 ∧ (9 < m ∨ (m = 9 ∧ 22 ≤ d)))

/-- Upper bound of the pandas nanosecond `Timestamp` range: midnight of
2262-04-11 is still below `Timestamp.max` (2262-04-11 23:47:16). -/
def timestampMaxOk (y m d : Nat) : Prop :=
  y < 2262 ∨ (y = 2262 ∧ (m < 4 ∨ (m = 4 ∧ d ≤ 11)))

instance (y m d : Nat) : Decidable (timestampMinOk y m d) := by
  unfold timestampMinOk; infer_instance

instance (y m d : Nat) : Decidable (timestampMaxOk y m d) := by
  unfold timestampMaxOk; infer_instance

/-- Calendar validation performed by `strptime`-style parsing, plus the
`Timestamp` range check: a calendar-valid date outside the nanosecond
`Timestamp` bounds raises `OutOfBoundsDatetime`, which `errors="coerce"`
turns into `NaT`. -/
def mkValidDate (y m d : Nat) : Option Date :=
  if 1 ≤ m ∧ m ≤ 12 ∧ 1 ≤ d ∧ d ≤ daysInMonth y m ∧
      timestampMinOk y m d ∧ timestampMaxOk y m d then
    some ⟨y, m, d⟩
  else none

/-- `pd.to_datetime(·, format="%d/%m/%Y", errors="coerce")` on one string:
day and month are 1–2 digits (`%d`/`%m`), the year exactly 4 digits
(`%Y` in CPython's `_strptime.TimeRE` matches `\d\d\d\d`), separated by
`/`, the whole string consumed; an invalid calendar combination or a
date outside the `Timestamp` range fails.  Failure is `none`, never an
error. -/
def parseDMYChars (l : List Char) : Option Date :=
  match splitChar '/' l with
  | [ds, ms, ys] =>
      if ds.length ≤ 2 ∧ ms.length ≤ 2 ∧ ys.length = 4 then
        match digitsToNat? ds, digitsToNat? ms, digitsToNat? ys with
        | some d, some m, some y => mkValidDate y m d
        | _, _, _ => none
      else none
  | _ => none

def parseDMY (s : String) : Option Date :=
  parseDMYChars s.data

/-- Date coercion of a whole cell: a missing cell gives `NaT`, a
non-string cell does not match the format and is likewise coerced. -/
def parseDateCell : Cell → Option Date
  | .str s => parseDMY s
  | _ => none

/-! ## Raw input tables (the CSV extracts, column names as in the source) -/

structure RawBrandRow where
  brand_id : Cell
  brand_name : Cell
deriving DecidableEq, Repr

structure RawCategoryRow where
  category_id : Cell
  category_name : Cell
deriving DecidableEq, Repr

structure RawStoreRow where
  name : Cell
  phone : Cell
  email : Cell
  street : Cell
  city : Cell
  state : Cell
  zip_code : Cell
deriving DecidableEq, Repr

structure RawCustomerRow where
  customer_id : Cell
  first_name : Cell
  last_name : Cell
  email : Cell
  phone : Cell
  street : Cell
  city : Cell
  state : Cell
  zip_code : Cell
deriving DecidableEq, Repr

structure RawProductRow where
  product_id : Cell
  product_name : Cell
  brand_id : Cell
  category_id : Cell
  model_year : Cell
  list_price : Cell
deriving DecidableEq, Repr

structure RawStaffRow where
  name : Cell
  last_name : Cell
  email : Cell
  phone : Cell
  active : Cell
  street : Cell
  store_name : Cell
  manager_id : Cell
deriving DecidableEq, Repr

structure RawStockRow where
  store_name : Cell
  product_id : Cell
  quantity : Cell
deriving DecidableEq, Repr

structure RawOrderRow where
  order_id : Cell
  customer_id : Cell
  order_status : Cell
  order_date : Cell
  required_date : Cell
  shipped_date : Cell
  store : Cell
  staff_name : Cell
deriving DecidableEq, Repr

structure RawOrderItemRow where
  order_id : Cell
  item_id : Cell
  product_id : Cell
  quantity : Cell
  list_price : Cell
  discount : Cell
deriving DecidableEq, Repr

/-- The dictionary produced by the raw table loader. -/
structure RawTables where
  brands : List RawBrandRow
  categories : List RawCategoryRow
  stores : List RawStoreRow
  customers : List RawCustomerRow
  products : List RawProductRow
  staffs : List RawStaffRow
  stocks : List RawStockRow
  orders : List RawOrderRow
  order_items : List RawOrderItemRow
deriving DecidableEq, Repr

/-! ## Normalized output tables -/

structure BrandRow where
  brand_id : Int
  brand_name : Cell
deriving DecidableEq, Repr

structure CategoryRow where
  category_id : Int
  category_name : Cell
deriving DecidableEq, Repr

structure StoreRow where
  store_id : Int
  store_name : Cell
  phone : Cell
  email : Cell
  street : Cell
  city : Cell
  state : Cell
  zip_code : Cell
deriving DecidableEq, Repr

structure CustomerRow where
  customer_id : Int
  first_name : Cell
  last_name : Cell
  email : Cell
  phone : Cell
  street : Cell
  city : Cell
  state : Cell
  zip_code : Cell
deriving DecidableEq, Repr

structure ProductRow where
  product_id : Int
  product_name : Cell
  brand_id : Int
  category_id : Int
  model_year : Int
  list_price : Option ℚ
deriving DecidableEq, Repr

structure StaffRow where
  staff_id : Int
  first_name : Cell
  last_name : Cell
  email : Cell
  phone : Cell
  active : Bool
  street : Cell
  store_id : Option Int
  manager_id : Option Int
deriving DecidableEq, Repr

structure StockRow where
  store_id : Int
  product_id : Int
  quantity : Int
deriving DecidableEq, Repr

structure OrderRow where
  order_id : Int
  customer_id : Int
  store_id : Int
  staff_id : Int
  order_status : Int
  order_date : Option Date
  required_date : Option Date
  shipped_date : Option Date
deriving DecidableEq, Repr

structure OrderItemRow where
  order_id : Int
  item_id : Int
  product_id : Int
  quantity : Int
  list_price : Option ℚ
  discount : Option ℚ
deriving DecidableEq, Repr

/-- The normalized table set returned by `prepare_relational_tables`. -/
structure Tables where
  brands : List BrandRow
  categories : List CategoryRow
  stores : List StoreRow
  customers : List CustomerRow
  products : List ProductRow
  staffs : List StaffRow
  stocks : List StockRow
  orders : List OrderRow
  order_items : List OrderItemRow
deriving DecidableEq, Repr

/-! ## Table traversal helpers -/

/-- Apply a fallible per-row transform to every row; the whole table
fails as soon as any row fails (the success/failure semantics of the
column-wise pandas coercions). -/
def mapE {α β : Type} (f : α → Except String β) : List α → Except String (List β)
  | [] => .ok []
  | a :: l =>
      match f a with
      | .error e => .error e
      | .ok b =>
          match mapE f l with
          | .error e => .error e
          | .ok r => .ok (b :: r)

/-- Pair each row with a surrogate id counting up from `start`
(`range(1, len(df) + 1)` when `start = 1`). -/
def withIds {α : Type} (start : Int) : List α → List (Int × α)
  | [] => []
  | a :: l => (start, a) :: withIds (start + 1) l

/-- Lookup in a Python `dict` built from a list of pairs: on duplicate
keys the last binding wins. -/
def dictGet (pairs : List (Cell × Int)) (k : Cell) : Option Int :=
  (pairs.reverse.find? (fun p => decide (p.1 = k))).map (fun p => p.2)

/-- A missing value flowing into `astype(int)`. -/
def nullableToInt : Option Int → Except String Int
  | some k => .ok k
  | none => .error "cannot convert non-finite values (NA or inf) to integer"

/-! ## `prepare_relational_tables`, stage by stage -/

def prepareBrandRow (r : RawBrandRow) : Except String BrandRow :=
  (r.brand_id.toInt).map (fun i => { brand_id := i, brand_name := r.brand_name })

def prepareBrands (rows : List RawBrandRow) : Except String (List BrandRow) :=
  mapE prepareBrandRow rows

def prepareCategoryRow (r : RawCategoryRow) : Except String CategoryRow :=
  (r.category_id.toInt).map (fun i => { category_id := i, category_name := r.category_name })

def prepareCategories (rows : List RawCategoryRow) : Except String (List CategoryRow) :=
  mapE prepareCategoryRow rows

/-- Stores: rename `name` to `store_name`, insert `store_id = 1..N` by row
position, project the fixed column set.  This stage cannot fail. -/
def prepareStores (rows : List RawStoreRow) : List StoreRow :=
  (withIds 1 rows).map (fun p =>
    { store_id := p.1, store_name := p.2.name, phone := p.2.phone, email := p.2.email,
      street := p.2.street, city := p.2.city, state := p.2.state, zip_code := p.2.zip_code })

/-- `dict(zip(stores["store_name"], stores["store_id"]))`. -/
def storeLookup (stores : List StoreRow) : Cell → Option Int :=
  dictGet (stores.map (fun s => (s.store_name, s.store_id)))

def prepareCustomerRow (r : RawCustomerRow) : Except String CustomerRow :=
  (r.customer_id.toInt).map (fun i =>
    { customer_id := i, first_name := r.first_name, last_name := r.last_name,
      email := r.email, phone := r.phone, street := r.street, city := r.city,
      state := r.state, zip_code := r.zip_code })

def prepareCustomers (rows : List RawCustomerRow) : Except String (List CustomerRow) :=
  mapE prepareCustomerRow rows

def prepareProductRow (r : RawProductRow) : Except String ProductRow := do
  let pid ← r.product_id.toInt
  let bid ← r.brand_id.toInt
  let cid ← r.category_id.toInt
  let my ← r.model_year.toInt
  let lp ← r.list_price.toFloat
  .ok { product_id := pid, product_name := r.product_name, brand_id := bid,
        category_id := cid, model_year := my, list_price := lp }

def prepareProducts (rows : List RawProductRow) : Except String (List ProductRow) :=
  mapE prepareProductRow rows

/-- Staffs: rename `name` to `first_name`, insert `staff_id` by position,
coerce `manager_id` with `to_numeric(errors="coerce")` then `Int64`,
coerce `active` with `fillna(0).astype(int).astype(bool)`, resolve
`store_id` through the store name lookup (a miss is a missing value, not
an error). -/
def prepareStaffRow (lookup : Cell → Option Int) (i : Int) (r : RawStaffRow) :
    Except String StaffRow := do
  let active ← coerceActive r.active
  let manager ← toNullableInt64 (toNumericCoerce r.manager_id)
  .ok { staff_id := i, first_name := r.name, last_name := r.last_name,
        email := r.email, phone := r.phone, active := active, street := r.street,
        store_id := lookup r.store_name, manager_id := manager }

def prepareStaffs (lookup : Cell → Option Int) (rows : List RawStaffRow) :
    Except String (List StaffRow) :=
  mapE (fun p => prepareStaffRow lookup p.1 p.2) (withIds 1 rows)

/-- `dict(zip(staffs["first_name"], staffs["staff_id"]))`. -/
def staffLookup (staffs : List StaffRow) : Cell → Option Int :=
  dictGet (staffs.map (fun s => (s.first_name, s.staff_id)))

/-- Stocks: resolve `store_id` by name, then coerce all three columns to
int — so an unresolved store name dies at the `astype(int)`. -/
def prepareStockRow (lookup : Cell → Option Int) (r : RawStockRow) :
    Except String StockRow := do
  let sid ← nullableToInt (lookup r.store_name)
  let pid ← r.product_id.toInt
  let q ← r.quantity.toInt
  .ok { store_id := sid, product_id := pid, quantity := q }

def prepareStocks (lookup : Cell → Option Int) (rows : List RawStockRow) :
    Except String (List StockRow) :=
  mapE (prepareStockRow lookup) rows

/-- Orders: parse the three date columns with coercion, resolve
`store_id`/`staff_id` by name, then coerce `order_status`, `order_id`,
`customer_id`, `store_id`, `staff_id` to int (in that column order); an
unresolved name is a missing value that the int coercion rejects. -/
def prepareOrderRow (slook tlook : Cell → Option Int) (r : RawOrderRow) :
    Except String OrderRow := do
  let od := parseDateCell r.order_date
  let rd := parseDateCell r.required_date
  let sd := parseDateCell r.shipped_date
  let sidq := slook r.store
  let tidq := tlook r.staff_name
  let status ← r.order_status.toInt
  let oid ← r.order_id.toInt
  let cid ← r.customer_id.toInt
  let sid ← nullableToInt sidq
  let tid ← nullableToInt tidq
  .ok { order_id := oid, customer_id := cid, store_id := sid, staff_id := tid,
        order_status := status, order_date := od, required_date := rd, shipped_date := sd }

def prepareOrders (slook tlook : Cell → Option Int) (rows : List RawOrderRow) :
    Except String (List OrderRow) :=
  mapE (prepareOrderRow slook tlook) rows

def prepareOrderItemRow (r : RawOrderItemRow) : Except String OrderItemRow := do
  let oid ← r.order_id.toInt
  let iid ← r.item_id.toInt
  let pid ← r.product_id.toInt
  let q ← r.quantity.toInt
  let lp ← r.list_price.toFloat
  let d ← r.discount.toFloat
  .ok { order_id := oid, item_id := iid, product_id := pid, quantity := q,
        list_price := lp, discount := d }

def prepareOrderItems (rows : List RawOrderItemRow) : Except String (List OrderItemRow) :=
  mapE prepareOrderItemRow rows

/-- `prepare_relational_tables`: clean and align the raw CSV tables with
the relational schema, in the statement order of the source. -/
def prepare_relational_tables (raw : RawTables) : Except String Tables :=
  (prepareBrands raw.brands).bind fun brands =>
  (prepareCategories raw.categories).bind fun categories =>
  let stores := prepareStores raw.stores
  (prepareCustomers raw.customers).bind fun customers =>
  (prepareProducts raw.products).bind fun products =>
  (prepareStaffs (storeLookup stores) raw.staffs).bind fun staffs =>
  (prepareStocks (storeLookup stores) raw.stocks).bind fun stocks =>
  (prepareOrders (storeLookup stores) (staffLookup staffs) raw.orders).bind fun orders =>
  (prepareOrderItems raw.order_items).bind fun items =>
  Except.ok { brands := brands, categories := categories, stores := stores,
              customers := customers, products := products, staffs := staffs,
              stocks := stocks, orders := orders, order_items := items }

/-! ## `build_order_summary` -/

/-- One row of the summary table
(`order_id, order_date, customer_id, customer_name, order_total`). -/
structure SummaryRow where
  order_id : Int
  order_date : Option Date
  customer_id : Int
  customer_name : Cell
  order_total : ℚ
deriving DecidableEq, Repr

/-- `quantity.astype(float) * list_price.astype(float) * (1 - discount.astype(float))`;
a missing factor makes the line total missing (`NaN`). -/
def lineTotal (it : OrderItemRow) : Option ℚ :=
  match it.list_price, it.discount with
  | some lp, some d => some ((it.quantity : ℚ) * lp * (1 - d))
  | _, _ => none

/-- The distinct keys of a list, keeping first occurrences. -/
def dedupKeys : List Int → List Int
  | [] => []
  | k :: rest => k :: (dedupKeys rest).filter (fun x => decide (x ≠ k))

/-- `items.groupby("order_id")["line_total"].sum()`: one row per distinct
`order_id`, summing the non-missing line totals of its group (pandas sums
with `skipna`, and an all-missing group sums to `0`). -/
def orderTotals (items : List OrderItemRow) : List (Int × ℚ) :=
  (dedupKeys (items.map (fun it => it.order_id))).map
    (fun oid => (oid, ((items.filter (fun it => decide (it.order_id = oid))).filterMap lineTotal).sum))

/-- Element-wise `+` on object-dtype cells: a missing operand propagates,
two strings concatenate, two numbers add, a mixed pair raises. -/
def cellConcat : Cell → Cell → Except String Cell
  | .null, _ => .ok .null
  | _, .null => .ok .null
  | .str a, .str b => .ok (.str (a ++ b))
  | .num a, .num b => .ok (.num (a + b))
  | _, _ => .error "unsupported operand types for +"

/-- `customers["first_name"] + " " + customers["last_name"]` on one row. -/
def customerDisplayName (c : CustomerRow) : Except String Cell := do
  let x ← cellConcat c.first_name (.str " ")
  cellConcat x c.last_name

/-- `left.merge(right, on=key, how="left")`: every left row is kept; it is
paired with each matching right row, or with nothing when there is no
match (duplicated right keys duplicate the left row). -/
def leftJoin {α β : Type} (left : List α) (lkey : α → Int)
    (right : List β) (rkey : β → Int) : List (α × Option β) :=
  left.flatMap (fun a =>
    match right.filter (fun b => decide (rkey b = lkey a)) with
    | [] => [(a, none)]
    | ms => ms.map (fun b => (a, some b)))

/-- One row of `customers[["customer_id", "customer_name"]]`. -/
def customerDetailRow (c : CustomerRow) : Except String (Int × Cell) :=
  (customerDisplayName c).map (fun n => (c.customer_id, n))

/-- Final projection of one doubly-merged row, with
`fillna({"order_total": 0})` applied (only `order_total` is filled; a
missing customer match leaves `customer_name` missing). -/
def summaryRowOf (p : (OrderRow × Option (Int × ℚ)) × Option (Int × Cell)) : SummaryRow :=
  { order_id := p.1.1.order_id,
    order_date := p.1.1.order_date,
    customer_id := p.1.1.customer_id,
    customer_name := match p.2 with | some d => d.2 | none => Cell.null,
    order_total := match p.1.2 with | some q => q.2 | none => 0 }

/-- `build_order_summary`: per-order line totals, customer display names,
two left merges, `fillna({"order_total": 0})`, and the final projection.
The only fallible step is the name concatenation (a numeric name cell). -/
def build_order_summary (t : Tables) : Except String (List SummaryRow) :=
  (mapE customerDetailRow t.customers).bind fun details =>
    Except.ok ((leftJoin
        (leftJoin t.orders (fun o => o.order_id) (orderTotals t.order_items) (fun p => p.1))
        (fun p => p.1.customer_id) details (fun p => p.1)).map summaryRowOf)

/-- The composed pipeline run by the driver: normalize, then aggregate. -/
def run_pipeline (raw : RawTables) : Except String (Tables × List SummaryRow) :=
  (prepare_relational_tables raw).bind fun t =>
    (build_order_summary t).map fun s => (t, s)

/-! ## Generic lemmas about the traversal helpers -/

theorem mapE_ok_length {α β : Type} (f : α → Except String β) :
    ∀ (l : List α) (out : List β), mapE f l = .ok out → out.length = l.length := by
  intro l
  induction l with
  | nil =>
      intro out h
      simp only [mapE, Except.ok.injEq] at h
      simp [← h]
  | cons a l ih =>
      intro out h
      simp only [mapE] at h
      cases hfa : f a with
      | error e => rw [hfa] at h; exact absurd h (by simp)
      | ok b =>
          rw [hfa] at h
          cases hml : mapE f l with
          | error e => rw [hml] at h; exact absurd h (by simp)
          | ok r =>
              rw [hml] at h
              simp only [Except.ok.injEq] at h
              subst h
              simp [ih r hml]

theorem mapE_ok_get {α β : Type} (f : α → Except String β) :
    ∀ (l : List α) (out : List β), mapE f l = .ok out →
      ∀ (i : Nat) (h1 : i < l.length) (h2 : i < out.length),
        f (l.get ⟨i, h1⟩) = .ok (out.get ⟨i, h2⟩) := by
  intro l
  induction l with
  | nil => intro out h i h1; exact absurd h1 (by simp)
  | cons a l ih =>
      intro out h i h1 h2
      simp only [mapE] at h
      cases hfa : f a with
      | error e => rw [hfa] at h; exact absurd h (by simp)
      | ok b =>
          rw [hfa] at h
          cases hml : mapE f l with
          | error e => rw [hml] at h; exact absurd h (by simp)
          | ok r =>
              rw [hml] at h
              simp only [Except.ok.injEq] at h
              subst h
              cases i with
              | zero => simpa using hfa
              | succ n =>
                  exact ih r hml n (by simpa using h1) (by simpa using h2)

theorem mapE_ok_mem {α β : Type} (f : α → Except String β) {a : α} :
    ∀ (l : List α) (out : List β), mapE f l = .ok out → a ∈ l →
      ∃ b ∈ out, f a = .ok b := by
  intro l
  induction l with
  | nil => intro out h ha; exact absurd ha (by simp)
  | cons x l ih =>
      intro out h ha
      simp only [mapE] at h
      cases hfx : f x with
      | error e => rw [hfx] at h; exact absurd h (by simp)
      | ok b =>
          rw [hfx] at h
          cases hml : mapE f l with
          | error e => rw [hml] at h; exact absurd h (by simp)
          | ok r =>
              rw [hml] at h
              simp only [Except.ok.injEq] at h
              subst h
              rcases List.mem_cons.mp ha with rfl | ha
              · exact ⟨b, by simp, hfx⟩
              · rcases ih r hml ha with ⟨b2, hb2, hf2⟩
                exact ⟨b2, by simp [hb2], hf2⟩

theorem mapE_error_of_bad {α β : Type} (f : α → Except String β) {a : α} :
    ∀ (l : List α), a ∈ l → (∀ y, f a ≠ .ok y) →
      ∃ e, mapE f l = .error e := by
  intro l ha hbad
  cases hml : mapE f l with
  | error e => exact ⟨e, rfl⟩
  | ok out =>
      rcases mapE_ok_mem f l out hml ha with ⟨b, _, hfb⟩
      exact absurd hfb (hbad b)

theorem mapE_ok_map_eq {α β γ : Type} (f : α → Except String β) (k : β → γ) (g : α → γ)
    (hfk : ∀ a b, f a = .ok b → k b = g a) :
    ∀ (l : List α) (out : List β), mapE f l = .ok out → out.map k = l.map g := by
  intro l
  induction l with
  | nil =>
      intro out h
      simp only [mapE, Except.ok.injEq] at h
      simp [← h]
  | cons a l ih =>
      intro out h
      simp only [mapE] at h
      cases hfa : f a with
      | error e => rw [hfa] at h; exact absurd h (by simp)
      | ok b =>
          rw [hfa] at h
          cases hml : mapE f l with
          | error e => rw [hml] at h; exact absurd h (by simp)
          | ok r =>
              rw [hml] at h
              simp only [Except.ok.injEq] at h
              subst h
              simp [hfk a b hfa, ih r hml]

theorem withIds_length {α : Type} : ∀ (s : Int) (l : List α), (withIds s l).length = l.length := by
  intro s l
  induction l generalizing s with
  | nil => simp [withIds]
  | cons a l ih => simp [withIds, ih]

theorem withIds_get {α : Type} :
    ∀ (l : List α) (s : Int) (i : Nat) (h1 : i < (withIds s l).length) (h2 : i < l.length),
      (withIds s l).get ⟨i, h1⟩ = (s + i, l.get ⟨i, h2⟩) := by
  intro l
  induction l with
  | nil => intro s i h1; exact absurd h1 (by simp [withIds])
  | cons a l ih =>
      intro s i h1 h2
      cases i with
      | zero => simp [withIds]
      | succ n =>
          have := ih (s + 1) n (by simpa [withIds] using h1) (by simpa using h2)
          simp only [withIds, List.get_cons_succ, this]
          congr 1
          omega

theorem withIds_map_fst {α : Type} :
    ∀ (l : List α) (s : Int),
      (withIds s l).map (fun p => p.1) = (List.range l.length).map (fun (i : Nat) => (i : Int) + s) := by
  intro l
  induction l with
  | nil => intro s; simp [withIds]
  | cons a l ih =>
      intro s
      rw [List.length_cons, List.range_succ_eq_map]
      simp only [withIds, List.map_cons, List.map_map]
      congr 1
      · simp
      · rw [ih (s + 1)]
        apply List.map_congr_left
        intro i _
        simp only [Function.comp_apply, Nat.succ_eq_add_one]
        push_cast
        omega

theorem dictGet_last {k : Cell} :
    ∀ (pairs : List (Cell × Int)) (i : Nat) (h : i < pairs.length),
      (pairs.get ⟨i, h⟩).1 = k →
      (∀ (j : Nat) (hj : j < pairs.length), i < j → (pairs.get ⟨j, hj⟩).1 ≠ k) →
      dictGet pairs k = some (pairs.get ⟨i, h⟩).2 := by
  intro pairs
  induction pairs with
  | nil => intro i h; exact absurd h (by simp)
  | cons p ps ih =>
      intro i h hk hlast
      unfold dictGet
      rw [List.reverse_cons, List.find?_append]
      cases i with
      | zero =>
          have hnone : ps.reverse.find? (fun q => decide (q.1 = k)) = none := by
            rw [List.find?_eq_none]
            intro x hx
            simp only [decide_eq_true_eq]
            intro hxk
            rw [List.mem_reverse] at hx
            rcases List.mem_iff_get.mp hx with ⟨⟨j, hj⟩, hget⟩
            have hxx : (ps.get ⟨j, hj⟩).1 = k := by rw [hget]; exact hxk
            exact hlast (j + 1) (by simp only [List.length_cons]; omega) (by omega) hxx
          rw [hnone]
          have hpk : p.1 = k := hk
          simp [List.find?_cons, hpk]
      | succ n =>
          have hn : n < ps.length := by simp only [List.length_cons] at h; omega
          have hk2 : (ps.get ⟨n, hn⟩).1 = k := hk
          have hlast2 : ∀ (j : Nat) (hj : j < ps.length), n < j → (ps.get ⟨j, hj⟩).1 ≠ k := by
            intro j hj hnj
            exact hlast (j + 1) (by simp only [List.length_cons]; omega) (by omega)
          have := ih n hn hk2 hlast2
          unfold dictGet at this
          cases hfind : ps.reverse.find? (fun q => decide (q.1 = k)) with
          | none => rw [hfind] at this; exact absurd this (by simp)
          | some q =>
              rw [hfind] at this
              simpa using this

theorem dedupKeys_mem : ∀ (l : List Int) (x : Int), x ∈ dedupKeys l ↔ x ∈ l := by
  intro l
  induction l with
  | nil => intro x; simp [dedupKeys]
  | cons k rest ih =>
      intro x
      simp only [dedupKeys, List.mem_cons, List.mem_filter, ih, decide_eq_true_eq]
      constructor
      · rintro (rfl | ⟨hx, _⟩)
        · exact Or.inl rfl
        · exact Or.inr hx
      · rintro (rfl | hx)
        · exact Or.inl rfl
        · by_cases hxk : x = k
          · exact Or.inl hxk
          · exact Or.inr ⟨hx, hxk⟩

theorem dedupKeys_nodup : ∀ (l : List Int), (dedupKeys l).Nodup := by
  intro l
  induction l with
  | nil => simp [dedupKeys]
  | cons k rest ih =>
      simp only [dedupKeys, List.nodup_cons]
      refine ⟨?_, List.Nodup.filter _ ih⟩
      intro hk
      rcases List.mem_filter.mp hk with ⟨_, hne⟩
      simp at hne

theorem length_filter_le_one_of_nodup {β : Type} (right : List β) (rkey : β → Int)
    (h : (right.map rkey).Nodup) (k : Int) :
    (right.filter (fun b => decide (rkey b = k))).length ≤ 1 := by
  induction right with
  | nil => simp
  | cons b bs ih =>
      simp only [List.map_cons, List.nodup_cons, List.mem_map] at h
      rcases h with ⟨hb, hbs⟩
      by_cases hbk : rkey b = k
      · have hnil : bs.filter (fun c => decide (rkey c = k)) = [] := by
          rw [List.filter_eq_nil_iff]
          intro c hc
          simp only [decide_eq_true_eq]
          intro hck
          exact hb ⟨c, hc, by rw [hck, hbk]⟩
        simp [List.filter_cons, hbk, hnil]
      · simpa [List.filter_cons, hbk] using ih hbs

theorem leftJoin_length {α β : Type} (left : List α) (lkey : α → Int)
    (right : List β) (rkey : β → Int)
    (h : ∀ k, (right.filter (fun b => decide (rkey b = k))).length ≤ 1) :
    (leftJoin left lkey right rkey).length = left.length := by
  induction left with
  | nil => simp [leftJoin]
  | cons a l ih =>
      simp only [leftJoin, List.flatMap_cons] at *
      rw [List.length_append, ih]
      cases hfil : right.filter (fun b => decide (rkey b = lkey a)) with
      | nil => simp; omega
      | cons m ms =>
          have := h (lkey a)
          rw [hfil] at this
          simp only [List.length_cons] at this
          have hms : ms = [] := by
            cases ms with
            | nil => rfl
            | cons x xs => simp at this
          subst hms
          simp
          omega

theorem leftJoin_mem {α β : Type} {left : List α} {lkey : α → Int}
    {right : List β} {rkey : β → Int} {pr : α × Option β}
    (h : pr ∈ leftJoin left lkey right rkey) :
    pr.1 ∈ left ∧
      ((pr.2 = none ∧ ∀ b ∈ right, rkey b ≠ lkey pr.1) ∨
        (∃ b, pr.2 = some b ∧ b ∈ right ∧ rkey b = lkey pr.1)) := by
  rcases List.mem_flatMap.mp h with ⟨a, ha, hpr⟩
  cases hfil : right.filter (fun b => decide (rkey b = lkey a)) with
  | nil =>
      rw [hfil] at hpr
      simp only [List.mem_singleton] at hpr
      subst hpr
      refine ⟨ha, Or.inl ⟨rfl, ?_⟩⟩
      intro b hb hbk
      have : b ∈ right.filter (fun b => decide (rkey b = lkey a)) :=
        List.mem_filter.mpr ⟨hb, by simp [hbk]⟩
      rw [hfil] at this
      exact absurd this (by simp)
  | cons m ms =>
      rw [hfil] at hpr
      rcases List.mem_map.mp hpr with ⟨b, hb, heq⟩
      have hbfil : b ∈ right.filter (fun b => decide (rkey b = lkey a)) := by
        rw [hfil]; exact hb
      rcases List.mem_filter.mp hbfil with ⟨hbr, hbk⟩
      subst heq
      exact ⟨ha, Or.inr ⟨b, rfl, hbr, by simpa using hbk⟩⟩

/-! ## Inversion lemmas for the fallible per-row transforms -/

theorem prepareStaffRow_ok {lookup : Cell → Option Int} {i : Int} {r : RawStaffRow}
    {out : StaffRow} (h : prepareStaffRow lookup i r = .ok out) :
    ∃ a m, coerceActive r.active = .ok a ∧
      toNullableInt64 (toNumericCoerce r.manager_id) = .ok m ∧
      out = { staff_id := i, first_name := r.name, last_name := r.last_name,
              email := r.email, phone := r.phone, active := a, street := r.street,
              store_id := lookup r.store_name, manager_id := m } := by
  unfold prepareStaffRow at h
  cases ha : coerceActive r.active with
  | error e => rw [ha] at h; simp only [bind, Except.bind] at h; exact Except.noConfusion h
  | ok a =>
      rw [ha] at h
      simp only [bind, Except.bind] at h
      cases hm : toNullableInt64 (toNumericCoerce r.manager_id) with
      | error e => rw [hm] at h; simp only [bind, Except.bind] at h; exact Except.noConfusion h
      | ok m =>
          rw [hm] at h
          simp only [bind, Except.bind, Except.ok.injEq] at h
          exact ⟨a, m, rfl, rfl, h.symm⟩

theorem prepareOrderRow_ok {slook tlook : Cell → Option Int} {r : RawOrderRow}
    {out : OrderRow} (h : prepareOrderRow slook tlook r = .ok out) :
    ∃ status oid cid sid tid,
      r.order_status.toInt = .ok status ∧ r.order_id.toInt = .ok oid ∧
      r.customer_id.toInt = .ok cid ∧
      slook r.store = some sid ∧ tlook r.staff_name = some tid ∧
      out = { order_id := oid, customer_id := cid, store_id := sid, staff_id := tid,
              order_status := status, order_date := parseDateCell r.order_date,
              required_date := parseDateCell r.required_date,
              shipped_date := parseDateCell r.shipped_date } := by
  unfold prepareOrderRow at h
  cases hst : r.order_status.toInt with
  | error e => rw [hst] at h; simp only [bind, Except.bind] at h; exact Except.noConfusion h
  | ok status =>
      rw [hst] at h
      simp only [bind, Except.bind] at h
      cases hoid : r.order_id.toInt with
      | error e => rw [hoid] at h; simp only [bind, Except.bind] at h; exact Except.noConfusion h
      | ok oid =>
          rw [hoid] at h
          simp only [bind, Except.bind] at h
          cases hcid : r.customer_id.toInt with
          | error e => rw [hcid] at h; simp only [bind, Except.bind] at h; exact Except.noConfusion h
          | ok cid =>
              rw [hcid] at h
              simp only [bind, Except.bind] at h
              cases hs : slook r.store with
              | none => rw [hs] at h; simp only [nullableToInt, bind, Except.bind] at h; exact Except.noConfusion h
              | some sid =>
                  rw [hs] at h
                  simp only [nullableToInt, bind, Except.bind] at h
                  cases ht : tlook r.staff_name with
                  | none => rw [ht] at h; simp only [nullableToInt, bind, Except.bind] at h; exact Except.noConfusion h
                  | some tid =>
                      rw [ht] at h
                      simp only [nullableToInt, bind, Except.bind, Except.ok.injEq] at h
                      exact ⟨status, oid, cid, sid, tid, rfl, rfl, rfl, rfl, rfl, h.symm⟩

theorem prepareOrderRow_not_ok_of_unresolved {slook tlook : Cell → Option Int}
    {r : RawOrderRow} (hbad : slook r.store = none ∨ tlook r.staff_name = none) :
    ∀ y, prepareOrderRow slook tlook r ≠ .ok y := by
  intro y hy
  rcases prepareOrderRow_ok hy with ⟨_, _, _, sid, tid, _, _, _, hs, ht, _⟩
  rcases hbad with hb | hb
  · rw [hb] at hs; exact absurd hs (by simp)
  · rw [hb] at ht; exact absurd ht (by simp)

theorem prepareStockRow_ok {lookup : Cell → Option Int} {r : RawStockRow}
    {out : StockRow} (h : prepareStockRow lookup r = .ok out) :
    ∃ sid pid q, lookup r.store_name = some sid ∧ r.product_id.toInt = .ok pid ∧
      r.quantity.toInt = .ok q ∧
      out = { store_id := sid, product_id := pid, quantity := q } := by
  unfold prepareStockRow at h
  cases hs : lookup r.store_name with
  | none => rw [hs] at h; simp only [nullableToInt, bind, Except.bind] at h; exact Except.noConfusion h
  | some sid =>
      rw [hs] at h
      simp only [nullableToInt, bind, Except.bind] at h
      cases hp : r.product_id.toInt with
      | error e => rw [hp] at h; simp only [bind, Except.bind] at h; exact Except.noConfusion h
      | ok pid =>
          rw [hp] at h
          simp only [bind, Except.bind] at h
          cases hq : r.quantity.toInt with
          | error e => rw [hq] at h; simp only [bind, Except.bind] at h; exact Except.noConfusion h
          | ok q =>
              rw [hq] at h
              simp only [bind, Except.bind, Except.ok.injEq] at h
              exact ⟨sid, pid, q, rfl, rfl, rfl, h.symm⟩

theorem prepareStockRow_not_ok_of_unresolved {lookup : Cell → Option Int}
    {r : RawStockRow} (hbad : lookup r.store_name = none) :
    ∀ y, prepareStockRow lookup r ≠ .ok y := by
  intro y hy
  rcases prepareStockRow_ok hy with ⟨sid, _, _, hs, _⟩
  rw [hbad] at hs
  exact absurd hs (by simp)

/-- Inversion of the whole normalizer: success means every stage
succeeded, and the result collects the stage outputs. -/
theorem prepare_ok_inv {raw : RawTables} {t : Tables}
    (h : prepare_relational_tables raw = .ok t) :
    ∃ brands categories customers products staffs stocks orders items,
      prepareBrands raw.brands = .ok brands ∧
      prepareCategories raw.categories = .ok categories ∧
      prepareCustomers raw.customers = .ok customers ∧
      prepareProducts raw.products = .ok products ∧
      prepareStaffs (storeLookup (prepareStores raw.stores)) raw.staffs = .ok staffs ∧
      prepareStocks (storeLookup (prepareStores raw.stores)) raw.stocks = .ok stocks ∧
      prepareOrders (storeLookup (prepareStores raw.stores)) (staffLookup staffs)
          raw.orders = .ok orders ∧
      prepareOrderItems raw.order_items = .ok items ∧
      t = { brands := brands, categories := categories,
            stores := prepareStores raw.stores, customers := customers,
            products := products, staffs := staffs, stocks := stocks,
            orders := orders, order_items := items } := by
  unfold prepare_relational_tables at h
  cases h1 : prepareBrands raw.brands with
  | error e => rw [h1] at h; simp only [Except.bind] at h; exact Except.noConfusion h
  | ok brands =>
  rw [h1] at h; simp only [Except.bind] at h
  cases h2 : prepareCategories raw.categories with
  | error e => rw [h2] at h; simp only [Except.bind] at h; exact Except.noConfusion h
  | ok categories =>
  rw [h2] at h; simp only [Except.bind] at h
  cases h3 : prepareCustomers raw.customers with
  | error e => rw [h3] at h; simp only [Except.bind] at h; exact Except.noConfusion h
  | ok customers =>
  rw [h3] at h; simp only [Except.bind] at h
  cases h4 : prepareProducts raw.products with
  | error e => rw [h4] at h; simp only [Except.bind] at h; exact Except.noConfusion h
  | ok products =>
  rw [h4] at h; simp only [Except.bind] at h
  cases h5 : prepareStaffs (storeLookup (prepareStores raw.stores)) raw.staffs with
  | error e => rw [h5] at h; simp only [Except.bind] at h; exact Except.noConfusion h
  | ok staffs =>
  rw [h5] at h; simp only [Except.bind] at h
  cases h6 : prepareStocks (storeLookup (prepareStores raw.stores)) raw.stocks with
  | error e => rw [h6] at h; simp only [Except.bind] at h; exact Except.noConfusion h
  | ok stocks =>
  rw [h6] at h; simp only [Except.bind] at h
  cases h7 : prepareOrders (storeLookup (prepareStores raw.stores)) (staffLookup staffs)
      raw.orders with
  | error e => rw [h7] at h; simp only [Except.bind] at h; exact Except.noConfusion h
  | ok orders =>
  rw [h7] at h; simp only [Except.bind] at h
  cases h8 : prepareOrderItems raw.order_items with
  | error e => rw [h8] at h; simp only [Except.bind] at h; exact Except.noConfusion h
  | ok items =>
  rw [h8] at h; simp only [Except.bind, Except.ok.injEq] at h
  exact ⟨brands, categories, customers, products, staffs, stocks, orders, items,
    rfl, rfl, rfl, rfl, rfl, rfl, h7, rfl, h.symm⟩

/-! ## Concrete example data used by the witnesses -/

def exRaw : RawTables :=
  { brands := [{ brand_id := .num 1, brand_name := .str "Electra" }],
    categories := [{ category_id := .num 1, category_name := .str "Children" }],
    stores := [{ name := .str "Santa Monica", phone := .null, email := .null,
                 street := .null, city := .null, state := .null, zip_code := .null },
               { name := .str "Baldwin Park", phone := .null, email := .null,
                 street := .null, city := .null, state := .null, zip_code := .null }],
    customers := [{ customer_id := .num 7, first_name := .str "Jane",
                    last_name := .str "Doe", email := .null, phone := .null,
                    street := .null, city := .null, state := .null, zip_code := .null }],
    products := [{ product_id := .num 1, product_name := .str "Trek 820",
                   brand_id := .num 1, category_id := .num 1, model_year := .num 2016,
                   list_price := .num 100 }],
    staffs := [{ name := .str "Fabiola", last_name := .str "Jacobi", email := .null,
                 phone := .null, active := .num 1, street := .null,
                 store_name := .str "Santa Monica", manager_id := .null }],
    stocks := [{ store_name := .str "Baldwin Park", product_id := .num 1,
                 quantity := .num 5 }],
    orders := [{ order_id := .num 1, customer_id := .num 7, order_status := .num 4,
                 order_date := .str "31/12/2023", required_date := .str "13/13/2023",
                 shipped_date := .null, store := .str "Santa Monica",
                 staff_name := .str "Fabiola" }],
    order_items := [{ order_id := .num 1, item_id := .num 1, product_id := .num 1,
                      quantity := .num 2, list_price := .num 100,
                      discount := .num (1/10) }] }

/-- The staffs table the normalizer produces from `exRaw`. -/
def exStaffsOut : List StaffRow :=
  [{ staff_id := 1, first_name := .str "Fabiola", last_name := .str "Jacobi",
     email := .null, phone := .null, active := true, street := .null,
     store_id := some 1, manager_id := none }]

/-! ## C2 -/

/-- C2: `prepare_relational_tables` assigns `store_id` and `staff_id` as
exactly the sequence `1..N` in source row order (`N` the respective source
row count); the raw store and staff rows carry no id column at all, so no
id is taken from a source column, and the assignment — like the whole
embedded transform, a pure function — is identical on identical input. -/
theorem C2_positional_surrogate_ids (raw : RawTables) (staffsOut : List StaffRow)
    (hst : prepareStaffs (storeLookup (prepareStores raw.stores)) raw.staffs
      = .ok staffsOut) :
    (prepareStores raw.stores).map (fun s => s.store_id)
        = (List.range raw.stores.length).map (fun (i : Nat) => (i : Int) + 1) ∧
      staffsOut.map (fun s => s.staff_id)
        = (List.range raw.staffs.length).map (fun (i : Nat) => (i : Int) + 1) := by
  constructor
  · unfold prepareStores
    rw [List.map_map]
    exact withIds_map_fst raw.stores 1
  · have hmap := mapE_ok_map_eq
      (fun p : Int × RawStaffRow =>
        prepareStaffRow (storeLookup (prepareStores raw.stores)) p.1 p.2)
      (fun s => s.staff_id) (fun p => p.1) ?_ (withIds 1 raw.staffs) staffsOut hst
    · rw [hmap, withIds_map_fst raw.staffs 1]
    · intro p b hb
      rcases prepareStaffRow_ok hb with ⟨a, m, _, _, hbe⟩
      rw [hbe]

/-- Witness for C2 on concrete data: two stores get ids `[1, 2]`, one
staff row gets id `[1]`. -/
theorem C2_positional_surrogate_ids_witness :
    (prepareStores exRaw.stores).map (fun s => s.store_id)
        = (List.range exRaw.stores.length).map (fun (i : Nat) => (i : Int) + 1) ∧
      exStaffsOut.map (fun s => s.staff_id)
        = (List.range exRaw.staffs.length).map (fun (i : Nat) => (i : Int) + 1) :=
  C2_positional_surrogate_ids exRaw exStaffsOut (by rfl)

/-- The normalized table set that `prepare_relational_tables` produces
from `exRaw`. -/
def exTablesOut : Tables :=
  { brands := [{ brand_id := 1, brand_name := .str "Electra" }],
    categories := [{ category_id := 1, category_name := .str "Children" }],
    stores := [{ store_id := 1, store_name := .str "Santa Monica", phone := .null,
                 email := .null, street := .null, city := .null, state := .null,
                 zip_code := .null },
               { store_id := 2, store_name := .str "Baldwin Park", phone := .null,
                 email := .null, street := .null, city := .null, state := .null,
                 zip_code := .null }],
    customers := [{ customer_id := 7, first_name := .str "Jane", last_name := .str "Doe",
                    email := .null, phone := .null, street := .null, city := .null,
                    state := .null, zip_code := .null }],
    products := [{ product_id := 1, product_name := .str "Trek 820", brand_id := 1,
                   category_id := 1, model_year := 2016, list_price := some 100 }],
    staffs := exStaffsOut,
    stocks := [{ store_id := 2, product_id := 1, quantity := 5 }],
    orders := [{ order_id := 1, customer_id := 7, store_id := 1, staff_id := 1,
                 order_status := 4, order_date := some { year := 2023, month := 12, day := 31 },
                 required_date := none, shipped_date := none }],
    order_items := [{ order_id := 1, item_id := 1, product_id := 1, quantity := 2,
                      list_price := some 100, discount := some (1/10) }] }

/-! ## C8 -/

/-- C8: when the normalizer succeeds, the Brands, Categories, Customers,
Products and OrderItems output tables each have exactly as many rows as
the corresponding raw table — those stages are per-row projection and
coercion, with no filtering. -/
theorem C8_projection_preserves_row_counts (raw : RawTables) (t : Tables)
    (h : prepare_relational_tables raw = .ok t) :
    t.brands.length = raw.brands.length ∧
      t.categories.length = raw.categories.length ∧
      t.customers.length = raw.customers.length ∧
      t.products.length = raw.products.length ∧
      t.order_items.length = raw.order_items.length := by
  rcases prepare_ok_inv h with
    ⟨b, c, cu, p, st, sk, o, it, hb, hc, hcu, hp, hst, hsk, ho, hit, ht⟩
  subst ht
  exact ⟨mapE_ok_length prepareBrandRow raw.brands b hb,
         mapE_ok_length prepareCategoryRow raw.categories c hc,
         mapE_ok_length prepareCustomerRow raw.customers cu hcu,
         mapE_ok_length prepareProductRow raw.products p hp,
         mapE_ok_length prepareOrderItemRow raw.order_items it hit⟩

/-- Witness for C8: on `exRaw` all five tables keep their single row. -/
theorem C8_projection_preserves_row_counts_witness :
    exTablesOut.brands.length = exRaw.brands.length ∧
      exTablesOut.categories.length = exRaw.categories.length ∧
      exTablesOut.customers.length = exRaw.customers.length ∧
      exTablesOut.products.length = exRaw.products.length ∧
      exTablesOut.order_items.length = exRaw.order_items.length :=
  C8_projection_preserves_row_counts exRaw exTablesOut (by rfl)

/-! ## C3 -/

/-- C3: if some raw order row names a store that the store lookup does not
know, or a staff first name the staff lookup does not know, the normalizer
returns an error (the unresolved name becomes a missing value that the
required int coercion of `store_id`/`staff_id` rejects) rather than a
result containing that order with a null foreign key. -/
theorem C3_unresolved_order_fk_is_fatal (raw : RawTables)
    (hbad : (∃ r ∈ raw.orders, storeLookup (prepareStores raw.stores) r.store = none) ∨
      (∃ staffs, prepareStaffs (storeLookup (prepareStores raw.stores)) raw.staffs
          = .ok staffs ∧
        ∃ r ∈ raw.orders, staffLookup staffs r.staff_name = none)) :
    ∃ e, prepare_relational_tables raw = .error e := by
  cases hres : prepare_relational_tables raw with
  | error e => exact ⟨e, rfl⟩
  | ok t =>
      rcases prepare_ok_inv hres with
        ⟨b, c, cu, p, st, sk, o, it, _, _, _, _, hst, _, ho, _, _⟩
      rcases hbad with ⟨r, hr, hnone⟩ | ⟨staffs2, hst2, r, hr, hnone⟩
      · rcases mapE_ok_mem _ raw.orders o ho hr with ⟨y, _, hy⟩
        exact absurd hy (prepareOrderRow_not_ok_of_unresolved (Or.inl hnone) y)
      · have heq : staffs2 = st := by
          have := hst2.symm.trans hst
          simpa using this
        subst heq
        rcases mapE_ok_mem _ raw.orders o ho hr with ⟨y, _, hy⟩
        exact absurd hy (prepareOrderRow_not_ok_of_unresolved (Or.inr hnone) y)

/-- `exRaw` with its only order pointing at an unknown store name. -/
def exRawBadOrderStore : RawTables :=
  { exRaw with
    orders := [{ order_id := .num 1, customer_id := .num 7, order_status := .num 4,
                 order_date := .str "31/12/2023", required_date := .null,
                 shipped_date := .null, store := .str "Nowhere",
                 staff_name := .str "Fabiola" }] }

/-- Witness for C3: the unknown store name `"Nowhere"` aborts the run. -/
theorem C3_unresolved_order_fk_is_fatal_witness :
    ∃ e, prepare_relational_tables exRawBadOrderStore = .error e :=
  C3_unresolved_order_fk_is_fatal exRawBadOrderStore
    (Or.inl ⟨{ order_id := .num 1, customer_id := .num 7, order_status := .num 4,
               order_date := .str "31/12/2023", required_date := .null,
               shipped_date := .null, store := .str "Nowhere",
               staff_name := .str "Fabiola" },
             by simp [exRawBadOrderStore], by rfl⟩)

/-! ## C10 -/

/-- C10: a raw stock row whose store name is absent from the store lookup
makes the normalizer fail — the missing value produced by the lookup
cannot pass the int coercion of the stocks `store_id` column — so an
unmatched store name in Stocks is fatal like in Orders, unlike the
tolerated null in Staffs. -/
theorem C10_unresolved_stock_store_is_fatal (raw : RawTables)
    (hbad : ∃ r ∈ raw.stocks, storeLookup (prepareStores raw.stores) r.store_name = none) :
    ∃ e, prepare_relational_tables raw = .error e := by
  cases hres : prepare_relational_tables raw with
  | error e => exact ⟨e, rfl⟩
  | ok t =>
      rcases prepare_ok_inv hres with
        ⟨b, c, cu, p, st, sk, o, it, _, _, _, _, _, hsk, _, _, _⟩
      rcases hbad with ⟨r, hr, hnone⟩
      rcases mapE_ok_mem _ raw.stocks sk hsk hr with ⟨y, _, hy⟩
      exact absurd hy (prepareStockRow_not_ok_of_unresolved hnone y)

/-- `exRaw` with its only stock row pointing at an unknown store name. -/
def exRawBadStockStore : RawTables :=
  { exRaw with
    stocks := [{ store_name := .str "Nowhere", product_id := .num 1,
                 quantity := .num 5 }] }

/-- Witness for C10: the unknown store name `"Nowhere"` aborts the run. -/
theorem C10_unresolved_stock_store_is_fatal_witness :
    ∃ e, prepare_relational_tables exRawBadStockStore = .error e :=
  C10_unresolved_stock_store_is_fatal exRawBadStockStore
    ⟨{ store_name := .str "Nowhere", product_id := .num 1, quantity := .num 5 },
     by simp [exRawBadStockStore], by rfl⟩

/-! ## C9 -/

/-- C9: the composed transform (normalizer followed by aggregator) is a
deterministic pure function of its input: two runs on identical input
give identical normalized tables and an identical summary.  In this
embedding purity holds by construction, mirroring the source functions,
which use no clock, randomness or other ambient state. -/
theorem C9_pipeline_deterministic (raw1 raw2 : RawTables) (h : raw1 = raw2) :
    prepare_relational_tables raw1 = prepare_relational_tables raw2 ∧
      run_pipeline raw1 = run_pipeline raw2 := by
  subst h
  exact ⟨rfl, rfl⟩

/-- Witness for C9 at `exRaw`. -/
theorem C9_pipeline_deterministic_witness :
    prepare_relational_tables exRaw = prepare_relational_tables exRaw ∧
      run_pipeline exRaw = run_pipeline exRaw :=
  C9_pipeline_deterministic exRaw exRaw rfl

/-! ## C7 -/

/-- The row of `prepareStaffs`' output at index `i` is
`prepareStaffRow lookup (1 + i)` of the raw row at index `i`. -/
theorem prepareStaffs_get {lookup : Cell → Option Int} {rows : List RawStaffRow}
    {out : List StaffRow} (h : prepareStaffs lookup rows = .ok out)
    (i : Nat) (hi : i < rows.length) (hio : i < out.length) :
    prepareStaffRow lookup (1 + (i : Int)) (rows.get ⟨i, hi⟩) = .ok (out.get ⟨i, hio⟩) := by
  have hlen : i < (withIds 1 rows).length := by rw [withIds_length]; exact hi
  have := mapE_ok_get (fun p : Int × RawStaffRow => prepareStaffRow lookup p.1 p.2)
    (withIds 1 rows) out h i hlen hio
  rw [withIds_get rows 1 i hlen hi] at this
  exact this

/-- C7: per staff row, `manager_id` is the `to_numeric` coercion with
non-numeric or blank becoming null (under success, the output is null
exactly when the coercion produced a missing value); `active` maps a
missing value to `false` and a numeric value to its int truthiness; and
`store_id` is the plain result of the store-name lookup, so an unmatched
name is a null `store_id` in the output, not an error. -/
theorem C7_staff_column_coercions (lookup : Cell → Option Int)
    (rows : List RawStaffRow) (out : List StaffRow)
    (h : prepareStaffs lookup rows = .ok out)
    (i : Nat) (hi : i < rows.length) (hio : i < out.length) :
    ((out.get ⟨i, hio⟩).manager_id = none ↔
        toNumericCoerce ((rows.get ⟨i, hi⟩).manager_id) = none) ∧
      toNumericCoerce .null = none ∧
      toNumericCoerce (.str "") = none ∧
      (∀ s0 : String, parseRatString s0 = none → toNumericCoerce (.str s0) = none) ∧
      ((rows.get ⟨i, hi⟩).active = .null → (out.get ⟨i, hio⟩).active = false) ∧
      (∀ q : ℚ, (rows.get ⟨i, hi⟩).active = .num q →
        (out.get ⟨i, hio⟩).active = (truncToInt q != 0)) ∧
      (out.get ⟨i, hio⟩).store_id = lookup ((rows.get ⟨i, hi⟩).store_name) := by
  have hrow := prepareStaffs_get h i hi hio
  rcases prepareStaffRow_ok hrow with ⟨a, m, hact, hman, hout⟩
  refine ⟨?_, rfl, rfl, ?_, ?_, ?_, ?_⟩
  · rw [hout]
    cases hnum : toNumericCoerce ((rows.get ⟨i, hi⟩).manager_id) with
    | none =>
        rw [hnum] at hman
        simp only [toNullableInt64, Except.ok.injEq] at hman
        simp [← hman]
    | some q =>
        rw [hnum] at hman
        simp only [toNullableInt64] at hman
        by_cases hden : q.den = 1
        · rw [if_pos hden] at hman
          simp only [Except.ok.injEq] at hman
          simp [← hman]
        · rw [if_neg hden] at hman
          exact Except.noConfusion hman
  · intro s0 hs0
    simp [toNumericCoerce, hs0]
  · intro hnull
    rw [hnull] at hact
    simp only [coerceActive, Except.ok.injEq] at hact
    rw [hout]
    simp [← hact]
  · intro q hq
    rw [hq] at hact
    simp only [coerceActive, Cell.toInt, Except.map, Except.ok.injEq] at hact
    rw [hout]
    simp [← hact]
  · rw [hout]

/-- Witness for C7 on `exRaw`: the single staff row has a null
`manager_id`, a truthy `active`, and `store_id` resolved by name. -/
theorem C7_staff_column_coercions_witness :
    ((exStaffsOut.get ⟨0, by decide⟩).manager_id = none ↔
        toNumericCoerce ((exRaw.staffs.get ⟨0, by decide⟩).manager_id) = none) ∧
      toNumericCoerce .null = none ∧
      toNumericCoerce (.str "") = none ∧
      (∀ s0 : String, parseRatString s0 = none → toNumericCoerce (.str s0) = none) ∧
      ((exRaw.staffs.get ⟨0, by decide⟩).active = .null →
        (exStaffsOut.get ⟨0, by decide⟩).active = false) ∧
      (∀ q : ℚ, (exRaw.staffs.get ⟨0, by decide⟩).active = .num q →
        (exStaffsOut.get ⟨0, by decide⟩).active = (truncToInt q != 0)) ∧
      (exStaffsOut.get ⟨0, by decide⟩).store_id
        = storeLookup (prepareStores exRaw.stores) ((exRaw.staffs.get ⟨0, by decide⟩).store_name) :=
  C7_staff_column_coercions (storeLookup (prepareStores exRaw.stores))
    exRaw.staffs exStaffsOut (by rfl) 0 (by decide) (by decide)

/-! ## C6 -/

/-- The name/id pair list underlying the store lookup, read at index `i`. -/
theorem storePairs_get (stores : List RawStoreRow) (i : Nat)
    (hp : i < ((prepareStores stores).map (fun s => (s.store_name, s.store_id))).length)
    (hi : i < stores.length) :
    ((prepareStores stores).map (fun s => (s.store_name, s.store_id))).get ⟨i, hp⟩
      = ((stores.get ⟨i, hi⟩).name, 1 + (i : Int)) := by
  rw [List.get_map]
  unfold prepareStores
  rw [List.get_map]
  rw [withIds_get stores 1 i (by rw [withIds_length]; exact hi) hi]

/-- The name/id pair list underlying the staff lookup, read at index `i`. -/
theorem staffPairs_get {lookup : Cell → Option Int} {rows : List RawStaffRow}
    {out : List StaffRow} (h : prepareStaffs lookup rows = .ok out) (i : Nat)
    (hp : i < (out.map (fun s => (s.first_name, s.staff_id))).length)
    (hi : i < rows.length) :
    (out.map (fun s => (s.first_name, s.staff_id))).get ⟨i, hp⟩
      = ((rows.get ⟨i, hi⟩).name, 1 + (i : Int)) := by
  have hio : i < out.length := by simpa using hp
  have hrow := prepareStaffs_get h i hi hio
  rcases prepareStaffRow_ok hrow with ⟨a, m, _, _, hout⟩
  rw [List.get_map, hout]

/-- C6: when several source rows share a store name (or staff first name),
the dictionary built by zipping names with ids keeps the id of the last
such row in source order, and each downstream resolution (staffs, stocks
and orders columns) is exactly one application of that lookup, hence uses
that single surviving id. -/
theorem C6_duplicate_names_last_writer_wins :
    (∀ (stores : List RawStoreRow) (n : Cell) (i : Nat) (hi : i < stores.length),
        (stores.get ⟨i, hi⟩).name = n →
        (∀ (j : Nat) (hj : j < stores.length), i < j → (stores.get ⟨j, hj⟩).name ≠ n) →
        storeLookup (prepareStores stores) n = some (1 + (i : Int))) ∧
      (∀ (lookup : Cell → Option Int) (rows : List RawStaffRow) (out : List StaffRow),
        prepareStaffs lookup rows = .ok out →
        ∀ (n : Cell) (i : Nat) (hi : i < rows.length),
          (rows.get ⟨i, hi⟩).name = n →
          (∀ (j : Nat) (hj : j < rows.length), i < j → (rows.get ⟨j, hj⟩).name ≠ n) →
          staffLookup out n = some (1 + (i : Int))) ∧
      (∀ slook tlook r o, prepareOrderRow slook tlook r = .ok o →
        slook r.store = some o.store_id ∧ tlook r.staff_name = some o.staff_id) ∧
      (∀ lookup r s, prepareStockRow lookup r = .ok s →
        lookup r.store_name = some s.store_id) ∧
      (∀ lookup i r s, prepareStaffRow lookup i r = .ok s →
        s.store_id = lookup r.store_name) := by
  refine ⟨?_, ?_, ?_, ?_, ?_⟩
  · intro stores n i hi hk hlast
    have hp : i < ((prepareStores stores).map (fun s => (s.store_name, s.store_id))).length := by
      simp [prepareStores, withIds_length]
      exact hi
    have hk2 : (((prepareStores stores).map
        (fun s => (s.store_name, s.store_id))).get ⟨i, hp⟩).1 = n := by
      rw [storePairs_get stores i hp hi]
      exact hk
    have hlast2 : ∀ (j : Nat)
        (hj : j < ((prepareStores stores).map (fun s => (s.store_name, s.store_id))).length),
        i < j →
        (((prepareStores stores).map (fun s => (s.store_name, s.store_id))).get ⟨j, hj⟩).1 ≠ n := by
      intro j hj hij
      have hjs : j < stores.length := by
        simp only [List.length_map, prepareStores, withIds_length] at hj
        simpa [withIds_length] using hj
      rw [storePairs_get stores j hj hjs]
      exact hlast j hjs hij
    have hres := dictGet_last
      ((prepareStores stores).map (fun s => (s.store_name, s.store_id))) i hp hk2 hlast2
    rw [storePairs_get stores i hp hi] at hres
    exact hres
  · intro lookup rows out h n i hi hk hlast
    have hlen : out.length = rows.length := by
      have := mapE_ok_length _ (withIds 1 rows) out h
      rw [withIds_length] at this
      exact this
    have hp : i < (out.map (fun s => (s.first_name, s.staff_id))).length := by
      simp [hlen]
      exact hi
    have hk2 : ((out.map (fun s => (s.first_name, s.staff_id))).get ⟨i, hp⟩).1 = n := by
      rw [staffPairs_get h i hp hi]
      exact hk
    have hlast2 : ∀ (j : Nat) (hj : j < (out.map (fun s => (s.first_name, s.staff_id))).length),
        i < j → ((out.map (fun s => (s.first_name, s.staff_id))).get ⟨j, hj⟩).1 ≠ n := by
      intro j hj hij
      have hjs : j < rows.length := by
        simp only [List.length_map, hlen] at hj
        exact hj
      rw [staffPairs_get h j hj hjs]
      exact hlast j hjs hij
    have hres := dictGet_last
      (out.map (fun s => (s.first_name, s.staff_id))) i hp hk2 hlast2
    rw [staffPairs_get h i hp hi] at hres
    exact hres
  · intro slook tlook r o h
    rcases prepareOrderRow_ok h with ⟨status, oid, cid, sid, tid, _, _, _, hs, ht, ho⟩
    rw [ho]
    exact ⟨hs, ht⟩
  · intro lookup r s h
    rcases prepareStockRow_ok h with ⟨sid, pid, q, hs, _, _, hout⟩
    rw [hout]
    exact hs
  · intro lookup i r s h
    rcases prepareStaffRow_ok h with ⟨a, m, _, _, hout⟩
    rw [hout]

/-- Two stores named `"Santa Monica"` around one named `"Baldwin Park"`. -/
def exStoresDup : List RawStoreRow :=
  [{ name := .str "Santa Monica", phone := .null, email := .null, street := .null,
     city := .null, state := .null, zip_code := .null },
   { name := .str "Baldwin Park", phone := .null, email := .null, street := .null,
     city := .null, state := .null, zip_code := .null },
   { name := .str "Santa Monica", phone := .null, email := .null, street := .null,
     city := .str "Los Angeles", state := .null, zip_code := .null }]

/-- Witness for C6: with duplicate store names the lookup returns the last
row's id (`3`), while the unique name keeps its own id (`2`). -/
theorem C6_duplicate_names_last_writer_wins_witness :
    storeLookup (prepareStores exStoresDup) (.str "Santa Monica") = some (1 + (2 : Int)) ∧
      storeLookup (prepareStores exStoresDup) (.str "Baldwin Park") = some (1 + (1 : Int)) :=
  ⟨C6_duplicate_names_last_writer_wins.1 exStoresDup (.str "Santa Monica") 2 (by decide)
      (by decide)
      (by
        intro j hj hij
        have h3 : j < 3 := hj
        omega),
    C6_duplicate_names_last_writer_wins.1 exStoresDup (.str "Baldwin Park") 1 (by decide)
      (by decide)
      (by
        intro j hj hij
        have h3 : j < 3 := hj
        have hj2 : j = 2 := by omega
        subst hj2
        show Cell.str "Santa Monica" ≠ Cell.str "Baldwin Park"
        decide)⟩

/-! ## C4 -/

/-- C4: each order item contributes
`quantity * list_price * (1 - discount)` to its order's total, for any
discount whatsoever (no range validation — a negative or above-one
discount is used as-is); with quantity 2, list price 100 and discount 0.1
the contribution is exactly 180 (the IEEE evaluation in the source also
yields exactly 180.0 on these values).  The grouped sum turns the single
item into an order total of 180. -/
theorem C4_line_total_formula (oid iid pid : Int) (q : Int) (lp d : ℚ) :
    lineTotal { order_id := oid, item_id := iid, product_id := pid, quantity := q,
                list_price := some lp, discount := some d }
        = some ((q : ℚ) * lp * (1 - d)) ∧
      lineTotal { order_id := oid, item_id := iid, product_id := pid, quantity := 2,
                  list_price := some 100, discount := some (1/10) } = some 180 ∧
      orderTotals [{ order_id := oid, item_id := iid, product_id := pid, quantity := 2,
                     list_price := some 100, discount := some (1/10) }] = [(oid, 180)] := by
  refine ⟨rfl, ?_, ?_⟩
  · simp only [lineTotal, Option.some.injEq]
    norm_num
  · simp only [orderTotals, dedupKeys, List.map_cons, List.map_nil, List.filter_nil,
      List.filter_cons, List.filter, lineTotal]
    simp [List.filterMap, lineTotal]
    norm_num

/-! ## C5 -/

/-- Two-digit zero-padded decimal rendering (the `DD`/`MM` fields). -/
def pad2 (n : Nat) : List Char :=
  [Nat.digitChar (n / 10 % 10), Nat.digitChar (n % 10)]

/-- Four-digit zero-padded decimal rendering (the `YYYY` field). -/
def pad4 (n : Nat) : List Char :=
  [Nat.digitChar (n / 1000 % 10), Nat.digitChar (n / 100 % 10),
   Nat.digitChar (n / 10 % 10), Nat.digitChar (n % 10)]

/-- A date text in `DD/MM/YYYY` form. -/
def fmtDMY (d m y : Nat) : String :=
  String.mk (pad2 d ++ '/' :: (pad2 m ++ '/' :: pad4 y))

theorem digitChar_isDigit : ∀ k, k < 10 → (Nat.digitChar k).isDigit = true := by decide

theorem digitChar_ne_slash : ∀ k, k < 10 → Nat.digitChar k ≠ '/' := by decide

theorem digitChar_toNat : ∀ k, k < 10 → (Nat.digitChar k).toNat = k + 48 := by decide

theorem slash_not_mem_pad2 (n : Nat) : '/' ∉ pad2 n := by
  intro hmem
  simp only [pad2, List.mem_cons, List.not_mem_nil, or_false] at hmem
  rcases hmem with h | h <;>
    exact digitChar_ne_slash _ (Nat.mod_lt _ (by norm_num)) h.symm

theorem slash_not_mem_pad4 (n : Nat) : '/' ∉ pad4 n := by
  intro hmem
  simp only [pad4, List.mem_cons, List.not_mem_nil, or_false] at hmem
  rcases hmem with h | h | h | h <;>
    exact digitChar_ne_slash _ (Nat.mod_lt _ (by norm_num)) h.symm

theorem splitChar_of_not_mem {sep : Char} : ∀ l : List Char, sep ∉ l →
    splitChar sep l = [l] := by
  intro l
  induction l with
  | nil => intro; rfl
  | cons c rest ih =>
      intro h
      have hc : ¬(c = sep) := by
        intro e
        exact h (by rw [e]; exact List.mem_cons_self sep rest)
      have hrest : sep ∉ rest := fun hr => h (List.mem_cons_of_mem c hr)
      simp only [splitChar]
      rw [if_neg hc, ih hrest]

theorem splitChar_append (sep : Char) : ∀ (a rest : List Char), sep ∉ a →
    splitChar sep (a ++ sep :: rest) = a :: splitChar sep rest := by
  intro a
  induction a with
  | nil =>
      intro rest _
      simp [splitChar]
  | cons c a2 ih =>
      intro rest h
      have hc : ¬(c = sep) := by
        intro e
        exact h (by rw [e]; exact List.mem_cons_self sep a2)
      have ha : sep ∉ a2 := fun hr => h (List.mem_cons_of_mem c hr)
      simp only [List.cons_append, splitChar]
      rw [if_neg hc]
      simp only [List.append_eq]
      rw [ih rest ha]

theorem digitsToNat?_pad2 (d : Nat) (hd : d ≤ 99) : digitsToNat? (pad2 d) = some d := by
  have h1 : d / 10 % 10 < 10 := Nat.mod_lt _ (by norm_num)
  have h2 : d % 10 < 10 := Nat.mod_lt _ (by norm_num)
  unfold digitsToNat? pad2
  rw [if_pos]
  · simp only [digitsToNat, List.foldl, Option.some.injEq]
    rw [digitChar_toNat _ h1, digitChar_toNat _ h2]
    omega
  · refine ⟨by simp, ?_⟩
    simp only [List.all_cons, List.all_nil, Bool.and_true]
    rw [digitChar_isDigit _ h1, digitChar_isDigit _ h2]
    simp

theorem digitsToNat?_pad4 (y : Nat) (hy : y ≤ 9999) : digitsToNat? (pad4 y) = some y := by
  have h1 : y / 1000 % 10 < 10 := Nat.mod_lt _ (by norm_num)
  have h2 : y / 100 % 10 < 10 := Nat.mod_lt _ (by norm_num)
  have h3 : y / 10 % 10 < 10 := Nat.mod_lt _ (by norm_num)
  have h4 : y % 10 < 10 := Nat.mod_lt _ (by norm_num)
  unfold digitsToNat? pad4
  rw [if_pos]
  · simp only [digitsToNat, List.foldl, Option.some.injEq]
    rw [digitChar_toNat _ h1, digitChar_toNat _ h2, digitChar_toNat _ h3,
      digitChar_toNat _ h4]
    omega
  · refine ⟨by simp, ?_⟩
    simp only [List.all_cons, List.all_nil, Bool.and_true]
    rw [digitChar_isDigit _ h1, digitChar_isDigit _ h2, digitChar_isDigit _ h3,
      digitChar_isDigit _ h4]
    simp

theorem daysInMonth_le_31 (y m : Nat) : daysInMonth y m ≤ 31 := by
  unfold daysInMonth
  split
  · split <;> omega
  · split <;> omega

theorem parseDMYChars_eq (l ds ms ys : List Char)
    (h : splitChar '/' l = [ds, ms, ys]) :
    parseDMYChars l =
      (if ds.length ≤ 2 ∧ ms.length ≤ 2 ∧ ys.length = 4 then
        match digitsToNat? ds, digitsToNat? ms, digitsToNat? ys with
        | some d, some m, some y => mkValidDate y m d
        | _, _, _ => none
      else none) := by
  unfold parseDMYChars
  rw [h]

/-- C5 counterexample: `"31/12/1500"` is a calendar-valid `DD/MM/YYYY`
text (December has 31 days in every year), yet the program coerces it to
a missing value, because the year 1500 lies outside the nanosecond
`Timestamp` range and `errors="coerce"` turns the resulting
`OutOfBoundsDatetime` into `NaT`.  So "a string in valid DD/MM/YYYY form
parses to the corresponding calendar date" fails as stated. -/
theorem C5_counterexample_out_of_range_year :
    parseDMY "31/12/1500" = none ∧
      fmtDMY 31 12 1500 = "31/12/1500" ∧
      (1 ≤ 12 ∧ 12 ≤ 12 ∧ 1 ≤ 31 ∧ 31 ≤ daysInMonth 1500 12) := by
  refine ⟨by decide, by decide, by decide⟩

/-- C5 (amended): a date text in valid `DD/MM/YYYY` form **whose date
lies within the pandas `Timestamp` range (1677-09-22 through
2262-04-11)** parses to exactly that calendar date; `"31/12/2023"` gives
2023-12-31 while `"13/13/2023"` (month 13) coerces to a missing value —
as does a calendar-valid date outside that range; and on a successful
normalizer row the three date columns are exactly this coercing parse of
the raw text — parse failure yields a null date in the row, never an
error.  (The bold range restriction is the amendment the counterexample
forces; the rest is the claim as stated.) -/
theorem C5_date_parsing :
    (∀ y m d : Nat, 1 ≤ m → m ≤ 12 → 1 ≤ d → d ≤ daysInMonth y m →
        timestampMinOk y m d → timestampMaxOk y m d →
        parseDMY (fmtDMY d m y) = some { year := y, month := m, day := d }) ∧
      parseDMY "31/12/2023" = some { year := 2023, month := 12, day := 31 } ∧
      parseDMY "13/13/2023" = none ∧
      (∀ (slook tlook : Cell → Option Int) (r : RawOrderRow) (out : OrderRow),
        prepareOrderRow slook tlook r = .ok out →
        out.order_date = parseDateCell r.order_date ∧
          out.required_date = parseDateCell r.required_date ∧
          out.shipped_date = parseDateCell r.shipped_date) := by
  refine ⟨?_, by decide, by decide, ?_⟩
  · intro y m d hm1 hm2 hd1 hd2 hmin hmax
    have hd99 : d ≤ 99 := le_trans hd2 (le_trans (daysInMonth_le_31 y m) (by norm_num))
    have hm99 : m ≤ 99 := by omega
    have hy4 : y ≤ 9999 := by
      rcases hmax with h | ⟨h, _⟩ <;> omega
    have hsplit : splitChar '/' (pad2 d ++ '/' :: (pad2 m ++ '/' :: pad4 y))
        = [pad2 d, pad2 m, pad4 y] := by
      rw [splitChar_append '/' (pad2 d) _ (slash_not_mem_pad2 d),
        splitChar_append '/' (pad2 m) _ (slash_not_mem_pad2 m),
        splitChar_of_not_mem _ (slash_not_mem_pad4 y)]
    show parseDMYChars (pad2 d ++ '/' :: (pad2 m ++ '/' :: pad4 y))
        = some { year := y, month := m, day := d }
    rw [parseDMYChars_eq _ _ _ _ hsplit]
    rw [if_pos (by simp [pad2, pad4])]
    rw [digitsToNat?_pad2 d hd99, digitsToNat?_pad2 m hm99, digitsToNat?_pad4 y hy4]
    show mkValidDate y m d = some { year := y, month := m, day := d }
    unfold mkValidDate
    rw [if_pos ⟨hm1, hm2, hd1, hd2, hmin, hmax⟩]
  · intro slook tlook r out h
    rcases prepareOrderRow_ok h with ⟨status, oid, cid, sid, tid, _, _, _, _, _, hout⟩
    rw [hout]
    exact ⟨rfl, rfl, rfl⟩

/-- Witness for the amended C5: the general statement instantiated at
29/02/2024 (an in-range leap-year day) and at the concrete raw order row
of `exRaw`. -/
theorem C5_date_parsing_witness :
    parseDMY (fmtDMY 29 2 2024) = some { year := 2024, month := 2, day := 29 } ∧
      (exTablesOut.orders.get ⟨0, by decide⟩).order_date
          = parseDateCell ((exRaw.orders.get ⟨0, by decide⟩).order_date) ∧
      (exTablesOut.orders.get ⟨0, by decide⟩).required_date
          = parseDateCell ((exRaw.orders.get ⟨0, by decide⟩).required_date) :=
  ⟨C5_date_parsing.1 2024 2 29 (by norm_num) (by norm_num) (by norm_num) (by decide)
      (by decide) (by decide),
    (C5_date_parsing.2.2.2 (storeLookup (prepareStores exRaw.stores))
        (staffLookup exStaffsOut) (exRaw.orders.get ⟨0, by decide⟩)
        (exTablesOut.orders.get ⟨0, by decide⟩) (by rfl)).1,
    (C5_date_parsing.2.2.2 (storeLookup (prepareStores exRaw.stores))
        (staffLookup exStaffsOut) (exRaw.orders.get ⟨0, by decide⟩)
        (exTablesOut.orders.get ⟨0, by decide⟩) (by rfl)).2.1⟩

/-! ## C1 -/

theorem mapE_ok_mem_rev {α β : Type} (f : α → Except String β) {b : β} :
    ∀ (l : List α) (out : List β), mapE f l = .ok out → b ∈ out →
      ∃ a ∈ l, f a = .ok b := by
  intro l
  induction l with
  | nil =>
      intro out h hb
      simp only [mapE, Except.ok.injEq] at h
      rw [← h] at hb
      exact absurd hb (by simp)
  | cons x l ih =>
      intro out h hb
      simp only [mapE] at h
      cases hfx : f x with
      | error e => rw [hfx] at h; exact Except.noConfusion h
      | ok y =>
          rw [hfx] at h
          cases hml : mapE f l with
          | error e => rw [hml] at h; exact Except.noConfusion h
          | ok r =>
              rw [hml] at h
              simp only [Except.ok.injEq] at h
              subst h
              rcases List.mem_cons.mp hb with rfl | hb
              · exact ⟨x, by simp, hfx⟩
              · rcases ih r hml hb with ⟨a, ha, hfa⟩
                exact ⟨a, by simp [ha], hfa⟩

theorem orderTotals_keys_nodup (items : List OrderItemRow) :
    ((orderTotals items).map (fun p => p.1)).Nodup := by
  unfold orderTotals
  rw [List.map_map]
  have hcomp : ((fun p : Int × ℚ => p.1) ∘
      (fun oid => (oid, ((items.filter (fun it => decide (it.order_id = oid))).filterMap
        lineTotal).sum))) = fun oid : Int => oid := rfl
  rw [hcomp]
  simpa using dedupKeys_nodup (items.map (fun it => it.order_id))

theorem orderTotals_mem_keys {items : List OrderItemRow} {q : Int × ℚ}
    (h : q ∈ orderTotals items) : ∃ it ∈ items, it.order_id = q.1 := by
  unfold orderTotals at h
  rcases List.mem_map.mp h with ⟨oid, hoid, rfl⟩
  rcases List.mem_map.mp ((dedupKeys_mem _ oid).mp hoid) with ⟨it, hit, hoid2⟩
  exact ⟨it, hit, hoid2⟩

theorem customerDetailRow_ok {c : CustomerRow} {d : Int × Cell}
    (h : customerDetailRow c = .ok d) :
    d.1 = c.customer_id ∧ customerDisplayName c = .ok d.2 := by
  unfold customerDetailRow at h
  cases hn : customerDisplayName c with
  | error e => rw [hn] at h; exact Except.noConfusion h
  | ok n =>
      rw [hn] at h
      simp only [Except.map, Except.ok.injEq] at h
      subst h
      exact ⟨rfl, rfl⟩

theorem customerDisplayName_str {c : CustomerRow} {f l : String}
    (hf : c.first_name = .str f) (hl : c.last_name = .str l) :
    customerDisplayName c = .ok (.str (f ++ " " ++ l)) := by
  unfold customerDisplayName
  rw [hf, hl]
  simp only [cellConcat, bind, Except.bind, Except.ok.injEq, Cell.str.injEq]

theorem customerDisplayName_ok_null_iff {c : CustomerRow} {x : Cell}
    (h : customerDisplayName c = .ok x) :
    (x = .null ↔ (c.first_name = .null ∨ c.last_name = .null)) := by
  cases hf : c.first_name with
  | null =>
      unfold customerDisplayName at h
      rw [hf] at h
      simp only [cellConcat, bind, Except.bind, Except.ok.injEq] at h
      simp [← h]
  | num a =>
      unfold customerDisplayName at h
      rw [hf] at h
      simp only [cellConcat, bind, Except.bind] at h
      exact Except.noConfusion h
  | str f =>
      cases hl : c.last_name with
      | null =>
          unfold customerDisplayName at h
          rw [hf, hl] at h
          simp only [cellConcat, bind, Except.bind, Except.ok.injEq] at h
          simp [← h, hl]
      | num a =>
          unfold customerDisplayName at h
          rw [hf, hl] at h
          simp only [cellConcat, bind, Except.bind] at h
          exact Except.noConfusion h
      | str l =>
          have := (customerDisplayName_str hf hl).symm.trans h
          simp only [Except.ok.injEq] at this
          rw [← this]
          simp [hf, hl]

theorem build_order_summary_ok_inv {t : Tables} {L : List SummaryRow}
    (h : build_order_summary t = .ok L) :
    ∃ details, mapE customerDetailRow t.customers = .ok details ∧
      L = (leftJoin
          (leftJoin t.orders (fun o => o.order_id) (orderTotals t.order_items) (fun p => p.1))
          (fun p => p.1.customer_id) details (fun p => p.1)).map summaryRowOf := by
  unfold build_order_summary at h
  cases hd : mapE customerDetailRow t.customers with
  | error e => rw [hd] at h; exact Except.noConfusion h
  | ok details =>
      rw [hd] at h
      simp only [Except.bind, Except.ok.injEq] at h
      exact ⟨details, rfl, h.symm⟩

/-- A customer table with a duplicated `customer_id` whose first
occurrence lacks a first name, plus one order referencing it. -/
def exDupCustomersTables : Tables :=
  { brands := [], categories := [], stores := [],
    customers := [{ customer_id := 7, first_name := .null, last_name := .str "Doe",
                    email := .null, phone := .null, street := .null, city := .null,
                    state := .null, zip_code := .null },
                  { customer_id := 7, first_name := .str "Jane", last_name := .str "Doe",
                    email := .null, phone := .null, street := .null, city := .null,
                    state := .null, zip_code := .null }],
    products := [], staffs := [], stocks := [],
    orders := [{ order_id := 1, customer_id := 7, store_id := 1, staff_id := 1,
                 order_status := 4, order_date := none, required_date := none,
                 shipped_date := none }],
    order_items := [] }

/-- C1 counterexample: on `exDupCustomersTables` the aggregator succeeds
yet returns two rows for the single input order (the duplicated
`customer_id` multiplies the left merge), and the first row has a null
`customer_name` even though the order's `customer_id` 7 does appear in
the customers table (its matched row has a null first name). -/
theorem C1_counterexample_duplicate_and_null_name :
    build_order_summary exDupCustomersTables = .ok
        [{ order_id := 1, order_date := none, customer_id := 7,
           customer_name := Cell.null, order_total := 0 },
         { order_id := 1, order_date := none, customer_id := 7,
           customer_name := Cell.str "Jane Doe", order_total := 0 }] ∧
      exDupCustomersTables.orders.length = 1 ∧
      (∃ c ∈ exDupCustomersTables.customers, c.customer_id = 7) := by
  refine ⟨by rfl, rfl, ?_⟩
  exact ⟨{ customer_id := 7, first_name := .null, last_name := .str "Doe",
           email := .null, phone := .null, street := .null, city := .null,
           state := .null, zip_code := .null }, by simp [exDupCustomersTables], rfl⟩

/-- C1 (amended): when `build_order_summary` succeeds **and the customer
ids are unique in the customers table**, the output has exactly one row
per input order; `order_total` is never missing and is exactly `0` for an
order with no matching items; a matched customer with string first and
last names yields `customer_name = first ++ " " ++ last`; and
`customer_name` is null only when the order's `customer_id` is absent
from the customers table **or the matched customer row has a null first
or last name**.  (The bold parts are the amendments the counterexample
forces; the rest is the claim as stated.) -/
theorem C1_order_summary_shape (t : Tables) (L : List SummaryRow)
    (hok : build_order_summary t = .ok L)
    (huniq : (t.customers.map (fun c => c.customer_id)).Nodup) :
    L.length = t.orders.length ∧
      (∀ row ∈ L, (∀ it ∈ t.order_items, it.order_id ≠ row.order_id) →
        row.order_total = 0) ∧
      (∀ row ∈ L, ∀ c ∈ t.customers, c.customer_id = row.customer_id →
        ∀ f l : String, c.first_name = .str f → c.last_name = .str l →
          row.customer_name = .str (f ++ " " ++ l)) ∧
      (∀ row ∈ L, row.customer_name = .null →
        (∀ c ∈ t.customers, c.customer_id ≠ row.customer_id) ∨
          (∃ c ∈ t.customers, c.customer_id = row.customer_id ∧
            (c.first_name = .null ∨ c.last_name = .null))) := by
  rcases build_order_summary_ok_inv hok with ⟨details, hdet, hL⟩
  subst hL
  have hdkeys : details.map (fun p => p.1) = t.customers.map (fun c => c.customer_id) :=
    mapE_ok_map_eq customerDetailRow (fun p => p.1) (fun c => c.customer_id)
      (fun c d hd => (customerDetailRow_ok hd).1) t.customers details hdet
  have hdnodup : (details.map (fun p => p.1)).Nodup := by rw [hdkeys]; exact huniq
  refine ⟨?_, ?_, ?_, ?_⟩
  · rw [List.length_map]
    rw [leftJoin_length _ _ details _
      (fun k => length_filter_le_one_of_nodup details _ hdnodup k)]
    exact leftJoin_length _ _ _ _
      (fun k => length_filter_le_one_of_nodup _ _ (orderTotals_keys_nodup t.order_items) k)
  · intro row hrow hnoitems
    rcases List.mem_map.mp hrow with ⟨p, hp, rfl⟩
    rcases leftJoin_mem hp with ⟨hp1, _⟩
    rcases leftJoin_mem hp1 with ⟨ho, hchar1⟩
    rcases hchar1 with ⟨hnone, _⟩ | ⟨q, hq, hqmem, hqkey⟩
    · simp [summaryRowOf, hnone]
    · exfalso
      rcases orderTotals_mem_keys hqmem with ⟨it, hit, hitid⟩
      exact hnoitems it hit (by rw [hitid, hqkey]; exact rfl)
  · intro row hrow c hc hcid f l hf hl
    rcases List.mem_map.mp hrow with ⟨p, hp, rfl⟩
    rcases leftJoin_mem hp with ⟨hp1, hchar2⟩
    rcases mapE_ok_mem customerDetailRow t.customers details hdet hc with ⟨d, hd, hdok⟩
    rcases customerDetailRow_ok hdok with ⟨hd1, hdname⟩
    rcases hchar2 with ⟨hnone, hmiss⟩ | ⟨b, hb, hbmem, hbkey⟩
    · exact absurd (by rw [hd1, hcid]; exact rfl : d.1 = p.1.1.customer_id) (hmiss d hd)
    · have hbd : b = d :=
        List.inj_on_of_nodup_map hdnodup hbmem hd (by rw [hbkey, hd1, hcid]; exact rfl)
      subst hbd
      have hdisp : customerDisplayName c = .ok (.str (f ++ " " ++ l)) :=
        customerDisplayName_str hf hl
      have hb2 : b.2 = .str (f ++ " " ++ l) := by
        have hcomp := hdname.symm.trans hdisp
        simpa using hcomp
      simp [summaryRowOf, hb, hb2]
  · intro row hrow hnull
    rcases List.mem_map.mp hrow with ⟨p, hp, rfl⟩
    rcases leftJoin_mem hp with ⟨hp1, hchar2⟩
    rcases hchar2 with ⟨hnone, hmiss⟩ | ⟨b, hb, hbmem, hbkey⟩
    · left
      intro c hc hceq
      rcases mapE_ok_mem customerDetailRow t.customers details hdet hc with ⟨d, hd, hdok⟩
      rcases customerDetailRow_ok hdok with ⟨hd1, _⟩
      exact hmiss d hd (by rw [hd1, hceq]; exact rfl)
    · right
      rcases mapE_ok_mem_rev customerDetailRow t.customers details hdet hbmem
        with ⟨c, hc, hcok⟩
      rcases customerDetailRow_ok hcok with ⟨hc1, hcname⟩
      refine ⟨c, hc, by rw [← hc1, hbkey]; exact rfl, ?_⟩
      have hb2 : b.2 = Cell.null := by
        have hcn := hnull
        simpa [summaryRowOf, hb] using hcn
      exact (customerDisplayName_ok_null_iff (hb2 ▸ hcname)).mp rfl

/-- A well-formed table set for the C1 witness: one customer with a
unique id, one order for it, no order items. -/
def exCleanTables : Tables :=
  { brands := [], categories := [], stores := [],
    customers := [{ customer_id := 7, first_name := .str "Jane", last_name := .str "Doe",
                    email := .null, phone := .null, street := .null, city := .null,
                    state := .null, zip_code := .null }],
    products := [], staffs := [], stocks := [],
    orders := [{ order_id := 1, customer_id := 7, store_id := 1, staff_id := 1,
                 order_status := 4, order_date := none, required_date := none,
                 shipped_date := none }],
    order_items := [] }

/-- The summary the aggregator produces from `exCleanTables`. -/
def exSummaryOut : List SummaryRow :=
  [{ order_id := 1, order_date := none, customer_id := 7,
     customer_name := .str "Jane Doe", order_total := 0 }]

/-- Witness for the amended C1 on `exCleanTables` (unique customer ids,
an order with no items). -/
theorem C1_order_summary_shape_witness :
    exSummaryOut.length = exCleanTables.orders.length ∧
      (∀ row ∈ exSummaryOut,
        (∀ it ∈ exCleanTables.order_items, it.order_id ≠ row.order_id) →
        row.order_total = 0) ∧
      (∀ row ∈ exSummaryOut, ∀ c ∈ exCleanTables.customers,
        c.customer_id = row.customer_id →
        ∀ f l : String, c.first_name = .str f → c.last_name = .str l →
          row.customer_name = .str (f ++ " " ++ l)) ∧
      (∀ row ∈ exSummaryOut, row.customer_name = .null →
        (∀ c ∈ exCleanTables.customers, c.customer_id ≠ row.customer_id) ∨
          (∃ c ∈ exCleanTables.customers, c.customer_id = row.customer_id ∧
            (c.first_name = .null ∨ c.last_name = .null))) :=
  C1_order_summary_shape exCleanTables exSummaryOut (by rfl) (by decide)

end UgeOtte
